import Mathlib

/-!
Shallow embedding of the RPC client connection/dispatch layer of the
client-sdk-rust repository: credential parsing (`src/credential_provider.rs`),
the leaderboard client builder and channel pool
(`src/leaderboard/leaderboard_client_builder.rs`,
`src/leaderboard/leaderboard_client.rs`) and the request-preparation paths of
the leaderboard operations
(`src/leaderboard/messages/data/get_rank.rs`,
`src/leaderboard/messages/control/delete_leaderboard.rs`).

Rust `String` / `Vec<u8>` values are modelled as `List Nat` (their byte
sequences); fallible Rust functions returning `Result` are modelled with
`Except`.
-/

namespace ClientSdk

/-- The UTF-8 bytes of an ASCII Lean string literal; used to write the byte
sequences of the Rust string constants appearing in the source. -/
def ascii (s : String) : List Nat := s.data.map Char.toNat

/-- Error codes of `MomentoErrorCode` (src/error, referenced from
`credential_provider.rs`); only the codes exercised by the embedded paths are
carried. -/
inductive MomentoErrorCode where
  | invalidArgumentError
  | unknownError
  deriving DecidableEq, Repr

/-- `MomentoError` (message plus error code). The `inner_error` source chain of
the Rust struct carries only a boxed foreign error for diagnostics and is not
modelled. -/
structure MomentoError where
  message : List Nat
  error_code : MomentoErrorCode
  deriving DecidableEq, Repr

/-! ## Base64 (URL-safe alphabet, padded)

Model of the external `base64` crate's `general_purpose::URL_SAFE` engine as
called by `decode_auth_token`: 4 token characters decode to 3 bytes, `=`
padding is mandatory, non-alphabet characters, non-canonical trailing bits and
data after padding are rejected.  The encoder is the inverse direction used to
state "for every valid token": it produces the canonical padded encoding. -/

/-- The URL-safe base64 alphabet: sextet `0..63` to ASCII byte
(`A-Z`, `a-z`, `0-9`, `-`, `_`). -/
def b64char (n : Nat) : Nat :=
  if n < 26 then 65 + n
  else if n < 52 then 97 + (n - 26)
  else if n < 62 then 48 + (n - 52)
  else if n = 62 then 45
  else 95

/-- Inverse alphabet lookup: ASCII byte to sextet, `none` off the alphabet. -/
def b64inv (c : Nat) : Option Nat :=
  if 65 ≤ c ∧ c ≤ 90 then some (c - 65)
  else if 97 ≤ c ∧ c ≤ 122 then some (c - 97 + 26)
  else if 48 ≤ c ∧ c ≤ 57 then some (c - 48 + 52)
  else if c = 45 then some 62
  else if c = 95 then some 63
  else none

/-- Canonical padded URL-safe base64 encoding of a byte sequence. -/
def base64urlEncode : List Nat → List Nat
  | [] => []
  | [a] => [b64char (a / 4), b64char (a % 4 * 16), 61, 61]
  | [a, b] => [b64char (a / 4), b64char (a % 4 * 16 + b / 16), b64char (b % 16 * 4), 61]
  | a :: b :: c :: rest =>
      b64char (a / 4) :: b64char (a % 4 * 16 + b / 16) ::
        b64char (b % 16 * 4 + c / 64) :: b64char (c % 64) :: base64urlEncode rest

/-- URL-safe base64 decoding with mandatory padding: rejects input whose
length is not a multiple of 4, non-alphabet characters, data after a padded
final quantum, and non-zero trailing bits in a padded quantum. -/
def base64urlDecode : List Nat → Option (List Nat)
  | [] => some []
  | c1 :: c2 :: c3 :: c4 :: rest => do
      let s1 ← b64inv c1
      let s2 ← b64inv c2
      if c3 = 61 then
        if c4 = 61 ∧ rest = [] ∧ s2 % 16 = 0 then
          some [s1 * 4 + s2 / 16]
        else none
      else do
        let s3 ← b64inv c3
        if c4 = 61 then
          if rest = [] ∧ s3 % 4 = 0 then
            some [s1 * 4 + s2 / 16, s2 % 16 * 16 + s3 / 4]
          else none
        else do
          let s4 ← b64inv c4
          let tail ← base64urlDecode rest
          some ((s1 * 4 + s2 / 16) :: (s2 % 16 * 16 + s3 / 4) :: (s3 % 4 * 64 + s4) :: tail)
  | _ => none

/-! ## JSON (V1 token payload)

Model of `serde_json::from_slice::<V1Token>` as called by `process_v1_token`,
at the byte level, for the input class relevant to token payloads: an object
of string-valued fields with no interior whitespace (trailing whitespace after
the object is allowed, as `serde_json` does).  Unknown string-valued fields
are ignored, as `serde`'s default deserialization does; UTF-8 validation of
string contents is elided (it never rejects bytes coming from a Rust
`String`).  String escapes are the JSON ones; `\uXXXX` is supported in the
ASCII range, which covers every escape a serializer emits for control
characters. -/

/-- Lower-case hex digit of a value `< 16` (ASCII byte). -/
def hexDigit (n : Nat) : Nat := if n < 10 then 48 + n else 87 + n

/-- Hex digit value of an ASCII byte (`0-9`, `a-f`, `A-F`). -/
def hexVal (c : Nat) : Option Nat :=
  if 48 ≤ c ∧ c ≤ 57 then some (c - 48)
  else if 97 ≤ c ∧ c ≤ 102 then some (c - 97 + 10)
  else if 65 ≤ c ∧ c ≤ 70 then some (c - 65 + 10)
  else none

/-- JSON string escaping of a byte sequence: `"` and `\` get a backslash
escape, control bytes become `\u00XX`, everything else is copied verbatim. -/
def jsonEscape : List Nat → List Nat
  | [] => []
  | b :: rest =>
      (if b = 34 then [92, 34]
       else if b = 92 then [92, 92]
       else if b < 32 then [92, 117, 48, 48, hexDigit (b / 16), hexDigit (b % 16)]
       else [b]) ++ jsonEscape rest

/-- Parse the body of a JSON string up to and including its closing quote,
returning the unescaped content and the remaining input.  Unescaped control
bytes and invalid escapes are rejected. -/
def parseJsonString : List Nat → Option (List Nat × List Nat)
  | [] => none
  | b :: rest =>
      if b = 34 then some ([], rest)
      else if b = 92 then
        match rest with
        | [] => none
        | e :: rest2 =>
            if e = 34 then (parseJsonString rest2).map (fun p => (34 :: p.1, p.2))
            else if e = 92 then (parseJsonString rest2).map (fun p => (92 :: p.1, p.2))
            else if e = 47 then (parseJsonString rest2).map (fun p => (47 :: p.1, p.2))
            else if e = 98 then (parseJsonString rest2).map (fun p => (8 :: p.1, p.2))
            else if e = 102 then (parseJsonString rest2).map (fun p => (12 :: p.1, p.2))
            else if e = 110 then (parseJsonString rest2).map (fun p => (10 :: p.1, p.2))
            else if e = 114 then (parseJsonString rest2).map (fun p => (13 :: p.1, p.2))
            else if e = 116 then (parseJsonString rest2).map (fun p => (9 :: p.1, p.2))
            else if e = 117 then
              match rest2 with
              | h1 :: h2 :: h3 :: h4 :: rest3 =>
                  match hexVal h1, hexVal h2, hexVal h3, hexVal h4 with
                  | some d1, some d2, some d3, some d4 =>
                      if 4096 * d1 + 256 * d2 + 16 * d3 + d4 < 128 then
                        (parseJsonString rest3).map
                          (fun p => ((4096 * d1 + 256 * d2 + 16 * d3 + d4) :: p.1, p.2))
                      else none
                  | _, _, _, _ => none
              | _ => none
            else none
      else if b < 32 then none
      else (parseJsonString rest).map (fun p => (b :: p.1, p.2))

/-- Parse the fields of a JSON object after its opening brace: a
comma-separated sequence of `"key":"value"` pairs followed by the closing
brace.  The fuel argument bounds the number of fields; callers pass the input
length, an upper bound. -/
def parseObjectFields : Nat → List Nat → Option (List (List Nat × List Nat) × List Nat)
  | 0, _ => none
  | fuel + 1, bs =>
      match bs with
      | 34 :: rest =>
          match parseJsonString rest with
          | none => none
          | some (key, rest1) =>
              match rest1 with
              | 58 :: 34 :: rest2 =>
                  match parseJsonString rest2 with
                  | none => none
                  | some (val, rest3) =>
                      match rest3 with
                      | 125 :: rest4 => some ([(key, val)], rest4)
                      | 44 :: rest4 =>
                          match parseObjectFields fuel rest4 with
                          | none => none
                          | some (fields, r) => some ((key, val) :: fields, r)
                      | _ => none
              | _ => none
      | _ => none

/-- JSON whitespace bytes (space, tab, line feed, carriage return). -/
def isJsonWs (b : Nat) : Bool := b = 32 || b = 9 || b = 10 || b = 13

/-- First value bound to `key`, if any. -/
def lookupField : List (List Nat × List Nat) → List Nat → Option (List Nat)
  | [], _ => none
  | (k, v) :: rest, key => if k = key then some v else lookupField rest key

/-- `V1Token` (credential_provider.rs): the JSON payload of an auth token. -/
structure V1Token where
  api_key : List Nat
  endpoint : List Nat
  deriving DecidableEq, Repr

/-- Deserialize a `V1Token` from JSON bytes: an object that must bind the
`api_key` and `endpoint` fields; trailing whitespace is permitted. -/
def parseV1Token (bs : List Nat) : Option V1Token :=
  match bs with
  | 123 :: rest =>
      match parseObjectFields rest.length rest with
      | none => none
      | some (fields, remaining) =>
          if remaining.all isJsonWs then
            match lookupField fields (ascii "api_key"), lookupField fields (ascii "endpoint") with
            | some a, some e => some ⟨a, e⟩
            | _, _ => none
          else none
  | _ => none

/-! ## CredentialProvider (src/credential_provider.rs) -/

/-- `CredentialProvider`: auth secret plus the three service endpoints. -/
structure CredentialProvider where
  auth_token : List Nat
  control_endpoint : List Nat
  cache_endpoint : List Nat
  token_endpoint : List Nat
  deriving DecidableEq, Repr

/-- `get_cache_endpoint`: prefix the base host with `cache.`. -/
def get_cache_endpoint (endpoint : List Nat) : List Nat := ascii "cache." ++ endpoint

/-- `get_control_endpoint`: prefix the base host with `control.`. -/
def get_control_endpoint (endpoint : List Nat) : List Nat := ascii "control." ++ endpoint

/-- `get_token_endpoint`: prefix the base host with `token.`. -/
def get_token_endpoint (endpoint : List Nat) : List Nat := ascii "token." ++ endpoint

/-- `https_endpoint`: prefix a hostname with the `https://` scheme. -/
def https_endpoint (hostname : List Nat) : List Nat := ascii "https://" ++ hostname

/-- `token_parsing_error`: the `InvalidArgumentError` returned for any
undecodable token. -/
def token_parsing_error : MomentoError :=
  { message := ascii "Could not parse token. Please ensure a valid token was entered correctly."
    error_code := .invalidArgumentError }

/-- `process_v1_token`: deserialize the decoded payload and derive the three
endpoints from the payload's base host. -/
def process_v1_token (auth_token_bytes : List Nat) : Except MomentoError CredentialProvider :=
  match parseV1Token auth_token_bytes with
  | none => .error token_parsing_error
  | some json =>
      .ok { auth_token := json.api_key
            cache_endpoint := https_endpoint (get_cache_endpoint json.endpoint)
            control_endpoint := https_endpoint (get_control_endpoint json.endpoint)
            token_endpoint := https_endpoint (get_token_endpoint json.endpoint) }

/-- `decode_auth_token`: URL-safe base64 decode, then process the payload. -/
def decode_auth_token (auth_token : List Nat) : Except MomentoError CredentialProvider :=
  match base64urlDecode auth_token with
  | none => .error token_parsing_error
  | some bytes => process_v1_token bytes

/-- `CredentialProvider::from_string`: reject the empty token, otherwise
decode it. -/
def CredentialProvider.from_string (auth_token : List Nat) :
    Except MomentoError CredentialProvider :=
  if auth_token = [] then
    .error { message := ascii "Auth token string cannot be empty"
             error_code := .invalidArgumentError }
  else decode_auth_token auth_token

/-- `CredentialProvider::from_env_var`: the environment read is modelled by
passing the variable's value explicitly (`none` = variable unset). -/
def CredentialProvider.from_env_var (env_var_name : List Nat) (env_value : Option (List Nat)) :
    Except MomentoError CredentialProvider :=
  match env_value with
  | none =>
      .error { message := ascii "Env var " ++ env_var_name ++ ascii " must be set"
               error_code := .invalidArgumentError }
  | some auth_token => decode_auth_token auth_token

/-- `CredentialProvider::base_endpoint`: rederive all three endpoints from a
new base host, leaving the secret untouched. -/
def CredentialProvider.base_endpoint (p : CredentialProvider) (endpoint : List Nat) :
    CredentialProvider :=
  { p with
    control_endpoint := https_endpoint (get_control_endpoint endpoint)
    cache_endpoint := https_endpoint (get_cache_endpoint endpoint)
    token_endpoint := https_endpoint (get_token_endpoint endpoint) }

/-- Model of Rust's `Debug` formatting for a string value: surrounding quotes
are added by the caller; `"`,`\` and the common control characters are
backslash-escaped.  (The `char::escape_debug` unicode escapes for other
non-printable characters are not reproduced; no theorem depends on them.) -/
def rustDebugEscape : List Nat → List Nat
  | [] => []
  | b :: rest =>
      (if b = 34 then [92, 34]
       else if b = 92 then [92, 92]
       else if b = 10 then [92, 110]
       else if b = 13 then [92, 114]
       else if b = 9 then [92, 116]
       else [b]) ++ rustDebugEscape rest

/-- The `Display` impl for `CredentialProvider`: the format string substitutes
`<redacted>` for the secret and interpolates only the three endpoints. -/
def CredentialProvider.display (p : CredentialProvider) : List Nat :=
  ascii "CredentialProvider \x7b auth_token: <redacted>, cache_endpoint: " ++
    p.cache_endpoint ++ ascii ", control_endpoint: " ++ p.control_endpoint ++
    ascii ", token_endpoint: " ++ p.token_endpoint ++ ascii " \x7d"

/-- The `Debug` impl for `CredentialProvider` (single-line `debug_struct`
rendering): the `auth_token` field is the literal `"<redacted>"`, the endpoint
fields are quoted with `Debug` string escaping. -/
def CredentialProvider.debugFmt (p : CredentialProvider) : List Nat :=
  ascii "CredentialProvider \x7b auth_token: \"<redacted>\", cache_endpoint: \"" ++
    rustDebugEscape p.cache_endpoint ++ ascii "\", control_endpoint: \"" ++
    rustDebugEscape p.control_endpoint ++ ascii "\", token_endpoint: \"" ++
    rustDebugEscape p.token_endpoint ++ ascii "\" \x7d"

/-- The JSON serialization of a V1 token payload with the given field values
(the field order and absence of whitespace match the serializer that produced
the spec's scenario token).  This is the claim's construction of a "valid
token" input; the source itself only decodes. -/
def v1TokenJson (api_key endpoint : List Nat) : List Nat :=
  ascii "\x7b\"endpoint\":\"" ++ jsonEscape endpoint ++ ascii "\",\"api_key\":\"" ++
    jsonEscape api_key ++ ascii "\"\x7d"

/-- A valid token for the given field values: URL-safe base64 of the JSON
payload. -/
def mkV1Token (api_key endpoint : List Nat) : List Nat :=
  base64urlEncode (v1TokenJson api_key endpoint)

/-- Decidable equality of `Except` results, for evaluating the embedded
functions at concrete inputs. -/
instance {e a : Type} [DecidableEq e] [DecidableEq a] : DecidableEq (Except e a) := fun x y =>
  match x, y with
  | .ok v, .ok w => if h : v = w then isTrue (by rw [h]) else isFalse (by simp [h])
  | .error v, .error w => if h : v = w then isTrue (by rw [h]) else isFalse (by simp [h])
  | .ok _, .error _ => isFalse (by simp)
  | .error _, .ok _ => isFalse (by simp)


/-! ## Channel pool and round-robin selection
(leaderboard_client.rs, leaderboard_client_builder.rs) -/

/-- A transport channel handle (`tonic::transport::Channel`): an opaque
handle, distinguished by identity. -/
structure Channel where
  id : Nat
  deriving DecidableEq, Repr

/-- `HeaderInterceptor` (grpc/header_interceptor.rs, constructed by the
builder with the auth token and the agent string): its two captured
strings. -/
structure HeaderInterceptor where
  auth_token : List Nat
  agent : List Nat
  deriving DecidableEq, Repr

/-- An intercepted service client
(`SLbClient<InterceptedService<Channel, HeaderInterceptor>>`, likewise the
control client): a channel wrapped with an interceptor. -/
structure InterceptedClient where
  channel : Channel
  interceptor : HeaderInterceptor
  deriving DecidableEq, Repr

/-- `GrpcConfiguration` (config/grpc_configuration.rs, not under src/).
Modelled from the spec: `GrpcConfiguration { num_channels: uint,
timeout: duration, ... }`; the timeout is carried in milliseconds. -/
structure GrpcConfiguration where
  num_channels : Nat
  deadline_millis : Nat
  deriving DecidableEq, Repr

/-- `TransportStrategy` (config/transport_strategy.rs, not under src/).
Modelled from the spec: wraps the grpc configuration. -/
structure TransportStrategy where
  grpc_configuration : GrpcConfiguration
  deriving DecidableEq, Repr

/-- Leaderboard `Configuration` (leaderboard/config, not under src/).
Modelled from the spec: wraps the transport strategy. -/
structure Configuration where
  transport_strategy : TransportStrategy
  deriving DecidableEq, Repr

/-- `Configuration::deadline_millis` (not under src/): the configured per-call
timeout. -/
def Configuration.deadline_millis (c : Configuration) : Nat :=
  c.transport_strategy.grpc_configuration.deadline_millis

/-- `LeaderboardClient`: the data-client pool, the control client and the
configuration. -/
structure LeaderboardClient where
  data_clients : List InterceptedClient
  control_client : InterceptedClient
  configuration : Configuration
  deriving DecidableEq, Repr

/-- `LeaderboardClient::deadline_millis`. -/
def LeaderboardClient.deadline_millis (c : LeaderboardClient) : Nat :=
  c.configuration.deadline_millis

/-- The number of `usize` values on the 64-bit targets the SDK runs on:
`AtomicUsize::fetch_add` wraps around at this modulus. -/
def usizeSize : Nat := 2 ^ 64

/-- `LeaderboardClient::next_data_client` together with the process-wide
`static NEXT_DATA_CLIENT_INDEX` counter, whose value is passed and returned
explicitly: the index is the fetched counter value modulo the pool length,
and the increment wraps at `usizeSize` exactly as `AtomicUsize::fetch_add`
does (a counter value is a `usize`, hence `< usizeSize`; the wrapping
increment maintains that invariant).  The selected element is `none` exactly
when the pool is empty, where the Rust code panics (remainder by zero).  The
counter is a `static`: one value is shared by every `LeaderboardClient` in
the process, so it is threaded through calls on different clients alike. -/
def next_data_client (data_clients : List InterceptedClient)
    (next_data_client_index : Nat) : Option InterceptedClient × Nat :=
  (data_clients.get? (next_data_client_index % data_clients.length),
   (next_data_client_index + 1) % usizeSize)

/-- Issue a number of consecutive `next_data_client` calls against one pool,
threading the shared counter: the selections in order, and the final counter
value. -/
def runNextCalls (data_clients : List InterceptedClient) :
    Nat → Nat → List (Option InterceptedClient) × Nat
  | counter, 0 => ([], counter)
  | counter, n + 1 =>
      let r := next_data_client data_clients counter
      let rest := runNextCalls data_clients r.2 n
      (r.1 :: rest.1, rest.2)

/-! ## Typed client builder (leaderboard_client_builder.rs) -/

/-- `ChannelConnectError` (utils, not under src/).  Modelled from the spec:
the error surfaced when a data or control connection fails to establish
during build. -/
structure ChannelConnectError where
  deriving DecidableEq, Repr

/-- Modelled from the spec: `utils::user_agent` is not under src/; the spec
says only that it is a client-identification string (product + version). -/
def user_agent (product : List Nat) : List Nat := ascii "rust-sdk:" ++ product

/-- Modelled from the spec: `utils::connect_channel_lazily_configurable` is
not under src/ — each connection attempt either yields a channel or fails
with `ChannelConnectError`.  The outcomes of a build's successive attempts
are supplied by this oracle: `data_outcome i` is the result of the `i`-th
data-channel attempt, `control_outcome` that of the control-channel
attempt. -/
structure ConnectOracle where
  data_outcome : Nat → Except ChannelConnectError Channel
  control_outcome : Except ChannelConnectError Channel

/-- Rust's `collect::<Result<Vec<_>, _>>`: the first error aborts the
collection. -/
def collectResults : List (Except ChannelConnectError Channel) →
    Except ChannelConnectError (List Channel)
  | [] => .ok []
  | .error e :: _ => .error e
  | .ok c :: rest => (collectResults rest).map (c :: ·)

/-- Builder phase `NeedsConfiguration` (referenced from
`LeaderboardClient::builder`; the struct itself is not under src/ — modelled
from the spec's builder surface, it carries nothing). -/
structure NeedsConfiguration where
  deriving DecidableEq, Repr

/-- Builder phase `NeedsCredentialProvider`: holds the configuration. -/
structure NeedsCredentialProvider where
  configuration : Configuration
  deriving DecidableEq, Repr

/-- Builder phase `ReadyToBuild`: holds configuration and credentials. -/
structure ReadyToBuild where
  configuration : Configuration
  credential_provider : CredentialProvider
  deriving DecidableEq, Repr

/-- `LeaderboardClientBuilder<State>`: the phase-indexed builder wrapper. -/
structure LeaderboardClientBuilder (State : Type) where
  state : State

/-- `LeaderboardClient::builder`: the initial phase. -/
def LeaderboardClient.builder : LeaderboardClientBuilder NeedsConfiguration := ⟨⟨⟩⟩

/-- Modelled from the spec: the `configuration` operation of the
`NeedsConfiguration` phase is not under src/ (spec 6: `configuration(cfg) ->
credential_provider(provider) -> ...`): it stores the configuration and is the
phase's only exposed operation. -/
def LeaderboardClientBuilder.configuration
    (_ : LeaderboardClientBuilder NeedsConfiguration) (configuration : Configuration) :
    LeaderboardClientBuilder NeedsCredentialProvider :=
  ⟨⟨configuration⟩⟩

/-- `LeaderboardClientBuilder::<NeedsCredentialProvider>::credential_provider`:
store the credentials and move to `ReadyToBuild`. -/
def LeaderboardClientBuilder.credential_provider
    (b : LeaderboardClientBuilder NeedsCredentialProvider)
    (credential_provider : CredentialProvider) : LeaderboardClientBuilder ReadyToBuild :=
  ⟨⟨b.state.configuration, credential_provider⟩⟩

/-- `LeaderboardClientBuilder::<ReadyToBuild>::with_num_connections`:
override the channel count, staying in `ReadyToBuild`. -/
def LeaderboardClientBuilder.with_num_connections
    (b : LeaderboardClientBuilder ReadyToBuild) (num_connections : Nat) :
    LeaderboardClientBuilder ReadyToBuild :=
  ⟨{ b.state with
      configuration := { transport_strategy := { grpc_configuration :=
        { b.state.configuration.transport_strategy.grpc_configuration with
            num_channels := num_connections } } } }⟩

/-- `LeaderboardClientBuilder::<ReadyToBuild>::build`: open `num_channels`
data channels (collecting results, so the first failure aborts), then the one
control channel, wrap every channel with a `HeaderInterceptor` carrying the
auth token and the agent string, and return the client. -/
def LeaderboardClientBuilder.build (b : LeaderboardClientBuilder ReadyToBuild)
    (oracle : ConnectOracle) : Except ChannelConnectError LeaderboardClient :=
  let agent_value := user_agent (ascii "cache")
  match collectResults ((List.range
      b.state.configuration.transport_strategy.grpc_configuration.num_channels).map
      oracle.data_outcome) with
  | .error e => .error e
  | .ok data_channels =>
      match oracle.control_outcome with
      | .error e => .error e
      | .ok control_channel =>
          .ok { data_clients := data_channels.map (fun c =>
                  { channel := c
                    interceptor := { auth_token := b.state.credential_provider.auth_token
                                     agent := agent_value } })
                control_client :=
                  { channel := control_channel
                    interceptor := { auth_token := b.state.credential_provider.auth_token
                                     agent := agent_value } }
                configuration := b.state.configuration }

/-- The observable phases of the leaderboard builder surface, with the data
each phase type carries, plus the terminal built client. -/
inductive BuilderPhase where
  | needsConfiguration
  | needsCredentialProvider (configuration : Configuration)
  | readyToBuild (configuration : Configuration) (credential_provider : CredentialProvider)
  | built (client : LeaderboardClient)

/-- One call of the builder surface: exactly the operations the phase types
expose — `configuration` on `NeedsConfiguration`, `credential_provider`
on `NeedsCredentialProvider`, `with_num_connections` and `build` on
`ReadyToBuild`.  No other transition exists; in particular nothing produces a
`built` client except `build` from `readyToBuild`. -/
inductive BuilderStep : BuilderPhase → BuilderPhase → Prop where
  | configuration (cfg : Configuration) :
      BuilderStep .needsConfiguration (.needsCredentialProvider cfg)
  | credential_provider (cfg : Configuration) (cred : CredentialProvider) :
      BuilderStep (.needsCredentialProvider cfg) (.readyToBuild cfg cred)
  | with_num_connections (cfg : Configuration) (cred : CredentialProvider) (n : Nat) :
      BuilderStep (.readyToBuild cfg cred)
        (.readyToBuild
          ((LeaderboardClientBuilder.with_num_connections ⟨⟨cfg, cred⟩⟩ n).state.configuration)
          cred)
  | build (cfg : Configuration) (cred : CredentialProvider) (oracle : ConnectOracle)
      (client : LeaderboardClient) :
      LeaderboardClientBuilder.build ⟨⟨cfg, cred⟩⟩ oracle = .ok client →
      BuilderStep (.readyToBuild cfg cred) (.built client)

/-! ## Request preparation (get_rank.rs, delete_leaderboard.rs) -/

/-- A prepared outbound call (`tonic::Request`): the wire message, the
attached deadline if any, and the target name carried for downstream
validation.  `Request::new` attaches neither. -/
structure OutboundCall (m : Type) where
  message : m
  deadline : Option Nat
  target_name : Option (List Nat)
  deriving DecidableEq, Repr

/-- Modelled from the spec: `utils::is_cache_name_valid` is not under src/;
the spec requires the target name to be non-empty, failing with
`InvalidArgument` (no concrete size/charset constants are given). -/
def is_cache_name_valid (cache_name : List Nat) : Except MomentoError Unit :=
  if cache_name = [] then
    .error { message := ascii "Cache name cannot be empty"
             error_code := .invalidArgumentError }
  else .ok ()

/-- Modelled from the spec: `utils::prep_request_with_timeout` is not under
src/ — it validates the target name, computes an absolute deadline from the
configured timeout, and attaches both to the outbound message (`now` is the
call-preparation instant in milliseconds). -/
def prep_request_with_timeout {m : Type} (cache_name : List Nat)
    (deadline_millis : Nat) (now : Nat) (message : m) :
    Except MomentoError (OutboundCall m) :=
  match is_cache_name_valid cache_name with
  | .error e => .error e
  | .ok _ =>
      .ok { message
            deadline := some (now + deadline_millis)
            target_name := some cache_name }

/-- `Order` (leaderboard data messages). -/
inductive Order where
  | ascending
  | descending
  deriving DecidableEq, Repr

/-- `Order as i32`. -/
def Order.toI32 : Order → Nat
  | .ascending => 0
  | .descending => 1

/-- The wire message `momento_protos::leaderboard::GetRankRequest`. -/
structure GetRankProto where
  cache_name : List Nat
  leaderboard : List Nat
  ids : List Nat
  order : Nat
  deriving DecidableEq, Repr

/-- `GetRankRequest` (get_rank.rs). -/
structure GetRankRequest where
  cache_name : List Nat
  leaderboard : List Nat
  ids : List Nat
  order : Order
  deriving DecidableEq, Repr

/-- The request-preparation part of `GetRankRequest::send` (everything before
the network call): build the proto message and route it through
`prep_request_with_timeout` with the client's configured deadline. -/
def GetRankRequest.prepare (r : GetRankRequest) (client : LeaderboardClient)
    (now : Nat) : Except MomentoError (OutboundCall GetRankProto) :=
  prep_request_with_timeout r.cache_name client.deadline_millis now
    { cache_name := r.cache_name
      leaderboard := r.leaderboard
      ids := r.ids
      order := r.order.toI32 }

/-- The wire message `control_client::DeleteCacheRequest`. -/
structure DeleteCacheProto where
  cache_name : List Nat
  deriving DecidableEq, Repr

/-- `DeleteLeaderboardRequest` (delete_leaderboard.rs). -/
structure DeleteLeaderboardRequest where
  cache_name : List Nat
  leaderboard : List Nat
  deriving DecidableEq, Repr

/-- The request-preparation part of `DeleteLeaderboardRequest::send`: the
target name is validated with `is_cache_name_valid`, then the request is
constructed directly with `Request::new` — no deadline is attached and
`prep_request_with_timeout` is not involved. -/
def DeleteLeaderboardRequest.prepare (r : DeleteLeaderboardRequest) :
    Except MomentoError (OutboundCall DeleteCacheProto) :=
  match is_cache_name_valid r.cache_name with
  | .error e => .error e
  | .ok _ =>
      .ok { message := { cache_name := r.cache_name }
            deadline := none
            target_name := none }

theorem b64inv_b64char : ∀ s < 64, b64inv (b64char s) = some s := by decide

theorem b64char_ne_pad : ∀ s < 64, b64char s ≠ 61 := by decide

/-- Decoding inverts encoding on byte sequences (every element `< 256`). -/
theorem base64urlDecode_encode :
    ∀ bs : List Nat, (∀ b ∈ bs, b < 256) →
      base64urlDecode (base64urlEncode bs) = some bs := by
  intro bs
  induction bs using base64urlEncode.induct with
  | case1 =>
      intro _
      decide
  | case2 a =>
      intro h
      have ha : a < 256 := h a (by simp)
      have h1 : a / 4 < 64 := by omega
      have h2 : a % 4 * 16 < 64 := by omega
      simp only [base64urlEncode, base64urlDecode, b64inv_b64char _ h1, b64inv_b64char _ h2,
        Option.bind_eq_bind, Option.some_bind]
      simp only [if_true, true_and]
      rw [if_pos (show a % 4 * 16 % 16 = 0 by omega)]
      congr 2
      omega
  | case3 a b =>
      intro h
      have ha : a < 256 := h a (by simp)
      have hb : b < 256 := h b (by simp)
      have h1 : a / 4 < 64 := by omega
      have h2 : a % 4 * 16 + b / 16 < 64 := by omega
      have h3 : b % 16 * 4 < 64 := by omega
      simp only [base64urlEncode, base64urlDecode, b64inv_b64char _ h1, b64inv_b64char _ h2,
        b64inv_b64char _ h3, Option.bind_eq_bind, Option.some_bind]
      rw [if_neg (b64char_ne_pad _ h3)]
      simp only [b64inv_b64char _ h3, Option.some_bind, if_true, true_and]
      rw [if_pos (show b % 16 * 4 % 4 = 0 by omega)]
      congr 2
      · omega
      · congr 1
        omega
  | case4 a b c rest ih =>
      intro h
      have ha : a < 256 := h a (by simp)
      have hb : b < 256 := h b (by simp)
      have hc : c < 256 := h c (by simp)
      have hrest : ∀ x ∈ rest, x < 256 := fun x hx => h x (by simp [hx])
      have h1 : a / 4 < 64 := by omega
      have h2 : a % 4 * 16 + b / 16 < 64 := by omega
      have h3 : b % 16 * 4 + c / 64 < 64 := by omega
      have h4 : c % 64 < 64 := by omega
      simp only [base64urlEncode, base64urlDecode, b64inv_b64char _ h1, b64inv_b64char _ h2,
        Option.bind_eq_bind, Option.some_bind]
      rw [if_neg (b64char_ne_pad _ h3)]
      simp only [b64inv_b64char _ h3, Option.some_bind]
      rw [if_neg (b64char_ne_pad _ h4)]
      simp only [b64inv_b64char _ h4, Option.some_bind, ih hrest]
      congr 2
      · omega
      · congr 1
        · omega
        · congr 1
          omega

theorem hexVal_hexDigit : ∀ n < 16, hexVal (hexDigit n) = some n := by decide

theorem parseJsonString_cons_quote (r : List Nat) :
    parseJsonString (34 :: r) = some ([], r) := by
  rw [parseJsonString.eq_def]
  simp

theorem parseJsonString_cons_plain (b : Nat) (rest : List Nat)
    (h34 : b ≠ 34) (h92 : b ≠ 92) (hc : ¬ b < 32) :
    parseJsonString (b :: rest) = (parseJsonString rest).map (fun p => (b :: p.1, p.2)) := by
  rw [parseJsonString.eq_def]
  simp only [if_neg h34, if_neg h92, if_neg hc]

theorem parseJsonString_cons_esc_quote (rest : List Nat) :
    parseJsonString (92 :: 34 :: rest) =
      (parseJsonString rest).map (fun p => (34 :: p.1, p.2)) := by
  rw [parseJsonString.eq_def]
  simp

theorem parseJsonString_cons_esc_backslash (rest : List Nat) :
    parseJsonString (92 :: 92 :: rest) =
      (parseJsonString rest).map (fun p => (92 :: p.1, p.2)) := by
  rw [parseJsonString.eq_def]
  simp

theorem parseJsonString_cons_esc_u (d3 d4 h3 h4 : Nat) (rest : List Nat)
    (e3 : hexVal h3 = some d3) (e4 : hexVal h4 = some d4) (hlt : 16 * d3 + d4 < 128) :
    parseJsonString (92 :: 117 :: 48 :: 48 :: h3 :: h4 :: rest) =
      (parseJsonString rest).map (fun p => ((16 * d3 + d4) :: p.1, p.2)) := by
  rw [parseJsonString.eq_def]
  simp only [e3, e4, show hexVal 48 = some 0 by decide]
  norm_num [hlt]

theorem parseJsonString_escape (s : List Nat) (h : ∀ x ∈ s, x < 256) :
    ∀ r, parseJsonString (jsonEscape s ++ 34 :: r) = some (s, r) := by
  induction s with
  | nil =>
      intro r
      simpa [jsonEscape] using parseJsonString_cons_quote r
  | cons b rest ih =>
      have hb : b < 256 := h b (by simp)
      have hrest : ∀ x ∈ rest, x < 256 := fun x hx => h x (by simp [hx])
      intro r
      by_cases h34 : b = 34
      · subst h34
        simp [jsonEscape, parseJsonString_cons_esc_quote, ih hrest]
      · by_cases h92 : b = 92
        · subst h92
          simp [jsonEscape, parseJsonString_cons_esc_backslash, ih hrest]
        · by_cases hc : b < 32
          · have hd1 : b / 16 < 16 := by omega
            have hd2 : b % 16 < 16 := by omega
            have hlt : 16 * (b / 16) + b % 16 < 128 := by omega
            simp only [jsonEscape, if_neg h34, if_neg h92, if_pos hc, List.cons_append,
              List.nil_append,
              parseJsonString_cons_esc_u _ _ _ _ _ (hexVal_hexDigit _ hd1)
                (hexVal_hexDigit _ hd2) hlt,
              ih hrest, Option.map_some]
            have hbeq : 16 * (b / 16) + b % 16 = b := by omega
            rw [hbeq]
            rfl
          · simp only [jsonEscape, if_neg h34, if_neg h92, if_neg hc, List.cons_append,
              List.nil_append, parseJsonString_cons_plain b _ h34 h92 hc, ih hrest,
              Option.map_some]
            rfl

theorem jsonEscape_keys_endpoint : jsonEscape (ascii "endpoint") = ascii "endpoint" := by decide

theorem jsonEscape_keys_api_key : jsonEscape (ascii "api_key") = ascii "api_key" := by decide

theorem parseObjectFields_v1 (A E : List Nat) (hA : ∀ x ∈ A, x < 256) (hE : ∀ x ∈ E, x < 256)
    (fuel : Nat) :
    parseObjectFields (fuel + 2)
      (34 :: (jsonEscape (ascii "endpoint") ++ 34 :: (58 :: 34 ::
        (jsonEscape E ++ 34 :: (44 :: (34 :: (jsonEscape (ascii "api_key") ++ 34 ::
          (58 :: 34 :: (jsonEscape A ++ 34 :: (125 :: [])))))))))) =
      some ([(ascii "endpoint", E), (ascii "api_key", A)], []) := by
  have hkey1 : ∀ x ∈ ascii "endpoint", x < 256 := by decide
  have hkey2 : ∀ x ∈ ascii "api_key", x < 256 := by decide
  rw [parseObjectFields.eq_def]
  simp only [parseJsonString_escape _ hkey1, parseJsonString_escape _ hE]
  rw [parseObjectFields.eq_def]
  simp only [parseJsonString_escape _ hkey2, parseJsonString_escape _ hA]

theorem v1TokenJson_shape (A E : List Nat) :
    v1TokenJson A E = 123 :: (34 :: (jsonEscape (ascii "endpoint") ++ 34 :: (58 :: 34 ::
      (jsonEscape E ++ 34 :: (44 :: (34 :: (jsonEscape (ascii "api_key") ++ 34 ::
        (58 :: 34 :: (jsonEscape A ++ 34 :: (125 :: [])))))))))) := by
  rw [jsonEscape_keys_endpoint, jsonEscape_keys_api_key]
  simp [v1TokenJson, ascii]

theorem parseV1Token_v1TokenJson (A E : List Nat)
    (hA : ∀ x ∈ A, x < 256) (hE : ∀ x ∈ E, x < 256) :
    parseV1Token (v1TokenJson A E) = some ⟨A, E⟩ := by
  obtain ⟨k, hk⟩ : ∃ k, (34 :: (jsonEscape (ascii "endpoint") ++ 34 :: (58 :: 34 ::
      (jsonEscape E ++ 34 :: (44 :: (34 :: (jsonEscape (ascii "api_key") ++ 34 ::
        (58 :: 34 :: (jsonEscape A ++ 34 :: (125 :: [])))))))))).length = k + 2 := by
    refine ⟨(jsonEscape E).length + (jsonEscape A).length + 25, ?_⟩
    rw [jsonEscape_keys_endpoint, jsonEscape_keys_api_key]
    simp [ascii, List.length_append, List.length_cons]
    omega
  have hne : lookupField [(ascii "endpoint", E), (ascii "api_key", A)] (ascii "api_key") =
      some A := by
    have h1 : ¬ (ascii "endpoint" = ascii "api_key") := by decide
    simp [lookupField, h1]
  have he : lookupField [(ascii "endpoint", E), (ascii "api_key", A)] (ascii "endpoint") =
      some E := by
    simp [lookupField]
  rw [v1TokenJson_shape]
  rw [parseV1Token.eq_def]
  simp only [hk, parseObjectFields_v1 A E hA hE k, hne, he, List.all_nil, if_true]

theorem hexDigit_lt : ∀ n < 16, hexDigit n < 256 := by decide

theorem jsonEscape_lt (s : List Nat) (h : ∀ x ∈ s, x < 256) :
    ∀ x ∈ jsonEscape s, x < 256 := by
  induction s with
  | nil => simp [jsonEscape]
  | cons b rest ih =>
      have hb : b < 256 := h b (by simp)
      have hr := ih (fun x hx => h x (by simp [hx]))
      intro x hx
      simp only [jsonEscape, List.mem_append] at hx
      rcases hx with hx | hx
      · by_cases h34 : b = 34
        · simp [h34] at hx
          omega
        · by_cases h92 : b = 92
          · simp [h34, h92] at hx
            omega
          · by_cases hc : b < 32
            · have hd1 := hexDigit_lt (b / 16) (by omega)
              have hd2 := hexDigit_lt (b % 16) (by omega)
              simp [h34, h92, hc] at hx
              rcases hx with h | h | h | h | h | h <;> omega
            · simp [h34, h92, hc] at hx
              omega
      · exact hr x hx

theorem v1TokenJson_lt (A E : List Nat) (hA : ∀ x ∈ A, x < 256) (hE : ∀ x ∈ E, x < 256) :
    ∀ x ∈ v1TokenJson A E, x < 256 := by
  have h1 : ∀ x ∈ (ascii "\x7b\"endpoint\":\"" : List Nat), x < 256 := by decide
  have h2 : ∀ x ∈ (ascii "\",\"api_key\":\"" : List Nat), x < 256 := by decide
  have h3 : ∀ x ∈ (ascii "\"\x7d" : List Nat), x < 256 := by decide
  intro x hx
  rw [v1TokenJson] at hx
  rcases List.mem_append.mp hx with hx | h
  swap
  · exact h3 x h
  rcases List.mem_append.mp hx with hx | h
  swap
  · exact jsonEscape_lt A hA x h
  rcases List.mem_append.mp hx with hx | h
  swap
  · exact h2 x h
  rcases List.mem_append.mp hx with h | h
  · exact h1 x h
  · exact jsonEscape_lt E hE x h

theorem mkV1Token_ne_nil (A E : List Nat) : mkV1Token A E ≠ [] := by
  rw [mkV1Token, v1TokenJson_shape, jsonEscape_keys_endpoint]
  rw [show ascii "endpoint" = 101 :: 110 :: 100 :: 112 :: 111 :: 105 :: 110 :: 116 :: []
    from by decide]
  simp [base64urlEncode]

theorem from_string_mkV1Token (A E : List Nat)
    (hA : ∀ x ∈ A, x < 256) (hE : ∀ x ∈ E, x < 256) :
    CredentialProvider.from_string (mkV1Token A E) =
      .ok { auth_token := A
            control_endpoint := ascii "https://control." ++ E
            cache_endpoint := ascii "https://cache." ++ E
            token_endpoint := ascii "https://token." ++ E } := by
  have hdec : base64urlDecode (mkV1Token A E) = some (v1TokenJson A E) :=
    base64urlDecode_encode _ (v1TokenJson_lt A E hA hE)
  unfold CredentialProvider.from_string
  rw [if_neg (mkV1Token_ne_nil A E)]
  simp only [decode_auth_token.eq_def, hdec]
  simp only [process_v1_token.eq_def, parseV1Token_v1TokenJson A E hA hE]
  rfl
/-- C1: for every valid token — the URL-safe base64 encoding of a JSON object
with string fields `api_key` and `endpoint` — `CredentialProvider::from_string`
returns a provider whose auth secret equals `api_key` exactly and whose three
endpoints equal `https://control.<endpoint>`, `https://cache.<endpoint>` and
`https://token.<endpoint>` exactly; in particular the scenario token
`eyJlbmRwb2ludCI6Im1vbWVudG9fZW5kcG9pbnQiLCJhcGlfa2V5IjoiLi4uIn0=` yields the
three `momento_endpoint` endpoints. -/
theorem from_string_valid_token_endpoints (api_key endpoint : List Nat)
    (hA : ∀ x ∈ api_key, x < 256) (hE : ∀ x ∈ endpoint, x < 256) :
    CredentialProvider.from_string (mkV1Token api_key endpoint) =
      .ok { auth_token := api_key
            control_endpoint := ascii "https://control." ++ endpoint
            cache_endpoint := ascii "https://cache." ++ endpoint
            token_endpoint := ascii "https://token." ++ endpoint } ∧
    CredentialProvider.from_string
        (ascii "eyJlbmRwb2ludCI6Im1vbWVudG9fZW5kcG9pbnQiLCJhcGlfa2V5IjoiLi4uIn0=") =
      .ok { auth_token := ascii "..."
            control_endpoint := ascii "https://control.momento_endpoint"
            cache_endpoint := ascii "https://cache.momento_endpoint"
            token_endpoint := ascii "https://token.momento_endpoint" } :=
  ⟨from_string_mkV1Token _ _ hA hE, by decide⟩

/-- Witness for `from_string_valid_token_endpoints` at a concrete key and
host. -/
theorem from_string_valid_token_endpoints_witness :
    (∀ x ∈ (ascii "my-api-key" : List Nat), x < 256) ∧
    (∀ x ∈ (ascii "cell-4.example.com" : List Nat), x < 256) ∧
    CredentialProvider.from_string
        (mkV1Token (ascii "my-api-key") (ascii "cell-4.example.com")) =
      .ok { auth_token := ascii "my-api-key"
            control_endpoint := ascii "https://control." ++ ascii "cell-4.example.com"
            cache_endpoint := ascii "https://cache." ++ ascii "cell-4.example.com"
            token_endpoint := ascii "https://token." ++ ascii "cell-4.example.com" } :=
  ⟨by decide, by decide,
    (from_string_valid_token_endpoints _ _ (by decide) (by decide)).1⟩

/-- C5: token decoding fails with `InvalidArgument` exactly on the bad inputs:
the empty token and the unset environment variable each return
`InvalidArgument` directly; any input whose base64 decode fails or whose JSON
payload lacks a required field returns the `InvalidArgument`
"Could not parse token" error; every outcome of `from_string` is `ok` or an
`InvalidArgument` error (the embedding is a total function, so no panic and no
network I/O occur on these paths). -/
theorem token_decoding_invalid_argument :
    (CredentialProvider.from_string [] =
      .error { message := ascii "Auth token string cannot be empty"
               error_code := .invalidArgumentError }) ∧
    (∀ name : List Nat, CredentialProvider.from_env_var name none =
      .error { message := ascii "Env var " ++ name ++ ascii " must be set"
               error_code := .invalidArgumentError }) ∧
    (∀ t, t ≠ [] → base64urlDecode t = none →
      CredentialProvider.from_string t = .error token_parsing_error) ∧
    (∀ t bs, t ≠ [] → base64urlDecode t = some bs → parseV1Token bs = none →
      CredentialProvider.from_string t = .error token_parsing_error) ∧
    token_parsing_error.error_code = .invalidArgumentError ∧
    token_parsing_error.message =
      ascii "Could not parse token. Please ensure a valid token was entered correctly." ∧
    (∀ t, (∃ p, CredentialProvider.from_string t = .ok p) ∨
      (∃ e, CredentialProvider.from_string t = .error e ∧
        e.error_code = .invalidArgumentError)) := by
  refine ⟨by decide, fun name => rfl, ?_, ?_, rfl, rfl, ?_⟩
  · intro t ht hd
    unfold CredentialProvider.from_string
    rw [if_neg ht]
    simp only [decode_auth_token.eq_def, hd]
  · intro t bs ht hd hp
    unfold CredentialProvider.from_string
    rw [if_neg ht]
    simp only [decode_auth_token.eq_def, hd, process_v1_token.eq_def, hp]
  · intro t
    by_cases ht : t = []
    · subst ht
      right
      exact ⟨{ message := ascii "Auth token string cannot be empty"
               error_code := .invalidArgumentError }, by decide, rfl⟩
    · unfold CredentialProvider.from_string
      rw [if_neg ht]
      rcases hd : base64urlDecode t with _ | bs
      · right
        exact ⟨token_parsing_error, by simp only [decode_auth_token.eq_def, hd], rfl⟩
      · rcases hp : parseV1Token bs with _ | v
        · right
          refine ⟨token_parsing_error, ?_, rfl⟩
          simp only [decode_auth_token.eq_def, hd, process_v1_token.eq_def, hp]
        · left
          refine ⟨{ auth_token := v.api_key
                    control_endpoint := https_endpoint (get_control_endpoint v.endpoint)
                    cache_endpoint := https_endpoint (get_cache_endpoint v.endpoint)
                    token_endpoint := https_endpoint (get_token_endpoint v.endpoint) }, ?_⟩
          simp only [decode_auth_token.eq_def, hd, process_v1_token.eq_def, hp]

/-- Witness for `token_decoding_invalid_argument`: the repository's own bad
inputs — a non-base64 token and a payload missing the required fields. -/
theorem token_decoding_invalid_argument_witness :
    CredentialProvider.from_string (ascii "wfheofhriugheifweif") =
      .error token_parsing_error ∧
    CredentialProvider.from_string (ascii "eyJmb28iOiJiYXIifQo=") =
      .error token_parsing_error ∧
    CredentialProvider.from_env_var (ascii "MOMENTO_API_KEY") none =
      .error { message := ascii "Env var " ++ ascii "MOMENTO_API_KEY" ++ ascii " must be set"
               error_code := .invalidArgumentError } :=
  ⟨token_decoding_invalid_argument.2.2.1 _ (by decide) (by decide),
   token_decoding_invalid_argument.2.2.2.1 _ (ascii "\x7b\"foo\":\"bar\"\x7d" ++ [10])
     (by decide) (by decide) (by decide),
   token_decoding_invalid_argument.2.1 _⟩

/-- C6: `base_endpoint H` yields a provider whose three endpoints are
`https://control.H`, `https://cache.H`, `https://token.H`, derived solely from
`H` (any provider with the same secret maps to the same result), with the
secret unchanged; applying it twice with the same `H` equals applying it
once. -/
theorem base_endpoint_override (p : CredentialProvider) (H : List Nat) :
    (p.base_endpoint H).auth_token = p.auth_token ∧
    (p.base_endpoint H).control_endpoint = ascii "https://control." ++ H ∧
    (p.base_endpoint H).cache_endpoint = ascii "https://cache." ++ H ∧
    (p.base_endpoint H).token_endpoint = ascii "https://token." ++ H ∧
    (p.base_endpoint H).base_endpoint H = p.base_endpoint H ∧
    (∀ q : CredentialProvider, q.auth_token = p.auth_token →
      q.base_endpoint H = p.base_endpoint H) := by
  refine ⟨rfl, rfl, rfl, rfl, rfl, ?_⟩
  intro q h
  cases p
  cases q
  simp_all [CredentialProvider.base_endpoint]

/-- Witness for `base_endpoint_override`: two providers sharing a secret but
with different prior endpoints are overridden to the same provider. -/
theorem base_endpoint_override_witness :
    (CredentialProvider.base_endpoint
        ⟨ascii "k", ascii "https://control.a", ascii "https://cache.a", ascii "https://token.a"⟩
        (ascii "b.example")).cache_endpoint = ascii "https://cache." ++ ascii "b.example" ∧
    CredentialProvider.base_endpoint
        ⟨ascii "k", ascii "x", ascii "y", ascii "z"⟩ (ascii "b.example") =
      CredentialProvider.base_endpoint
        ⟨ascii "k", ascii "https://control.a", ascii "https://cache.a", ascii "https://token.a"⟩
        (ascii "b.example") :=
  ⟨(base_endpoint_override _ _).2.2.1,
   (base_endpoint_override
      ⟨ascii "k", ascii "https://control.a", ascii "https://cache.a", ascii "https://token.a"⟩
      (ascii "b.example")).2.2.2.2.2 _ (by decide)⟩

/-- C9: the auth secret never appears in diagnostic output — the `Display` and
`Debug` renderings substitute the fixed `<redacted>` placeholder for the
secret field, so two providers differing only in their secret render
character-for-character identically. -/
theorem display_debug_redact_secret (s1 s2 c ct t : List Nat) :
    CredentialProvider.display ⟨s1, c, ct, t⟩ = CredentialProvider.display ⟨s2, c, ct, t⟩ ∧
    CredentialProvider.debugFmt ⟨s1, c, ct, t⟩ = CredentialProvider.debugFmt ⟨s2, c, ct, t⟩ ∧
    (ascii "auth_token: <redacted>").IsInfix (CredentialProvider.display ⟨s1, c, ct, t⟩) ∧
    (ascii "auth_token: \"<redacted>\"").IsInfix (CredentialProvider.debugFmt ⟨s1, c, ct, t⟩) := by
  refine ⟨rfl, rfl, ?_, ?_⟩
  · exact List.IsInfix.trans
      (by decide : (ascii "auth_token: <redacted>").IsInfix
        (ascii "CredentialProvider \x7b auth_token: <redacted>, cache_endpoint: "))
      ((List.prefix_append _ _).isInfix)
  · exact List.IsInfix.trans
      (by decide : (ascii "auth_token: \"<redacted>\"").IsInfix
        (ascii "CredentialProvider \x7b auth_token: \"<redacted>\", cache_endpoint: \""))
      ((List.prefix_append _ _).isInfix)

theorem runNextCalls_spec (pool : List InterceptedClient) :
    ∀ (n counter : Nat), counter < usizeSize →
      (runNextCalls pool counter n).1 =
        (List.range n).map
          (fun k => pool.get? ((counter + k) % usizeSize % pool.length)) ∧
      (runNextCalls pool counter n).2 = (counter + n) % usizeSize := by
  have hM : 0 < usizeSize := by decide
  intro n
  induction n with
  | zero =>
      intro counter hc
      simp [runNextCalls, Nat.mod_eq_of_lt hc]
  | succ n ih =>
      intro counter hc
      obtain ⟨ih1, ih2⟩ := ih ((counter + 1) % usizeSize) (Nat.mod_lt _ hM)
      constructor
      · simp only [runNextCalls, next_data_client, ih1, List.range_succ_eq_map,
          List.map_cons, List.map_map]
        refine List.cons_eq_cons.mpr ⟨?_, ?_⟩
        · rw [Nat.add_zero, Nat.mod_eq_of_lt hc]
        · apply List.map_congr_left
          intro k _
          simp only [Function.comp_apply]
          rw [Nat.mod_add_mod]
          have heq : counter + 1 + k = counter + k.succ := by omega
          rw [heq]
      · simp only [runNextCalls, next_data_client, ih2]
        rw [Nat.mod_add_mod]
        have heq : counter + 1 + n = counter + (n + 1) := by omega
        rw [heq]

/-- C3 counterexample: at the `usize` wrap boundary the claim fails on the
code.  With a pool of three clients and the shared counter at `2^64 - 1`,
three consecutive calls select the members at indices 0, 0, 1 — the first
member twice and the third never — because `fetch_add` wraps the counter to 0
mid-cycle, while the claim predicts `pool[(counter₀ + k) % 3]`, the indices
0, 1, 2, each member exactly once. -/
theorem next_data_client_round_robin_counterexample :
    (runNextCalls [⟨⟨10⟩, ⟨[], []⟩⟩, ⟨⟨11⟩, ⟨[], []⟩⟩, ⟨⟨12⟩, ⟨[], []⟩⟩]
        (2 ^ 64 - 1) 3).1 =
      [some ⟨⟨10⟩, ⟨[], []⟩⟩, some ⟨⟨10⟩, ⟨[], []⟩⟩, some ⟨⟨11⟩, ⟨[], []⟩⟩] ∧
    (List.range 3).map (fun k => (2 ^ 64 - 1 + k) % 3) = [0, 1, 2] := by decide

/-- C3 (amended): for a pool of size `N > 0` and a shared-counter value whose
`N` calls do not cross the `usize` wrap boundary
(`counter₀ + N ≤ 2^64`), `N` consecutive `next_data_client` calls visit each
pool member exactly once, in index order, before repeating: the `k`-th call
returns `pool[(counter₀ + k) % N]`, the indices visited over the cycle are a
permutation of `0..N-1` (no skips, no repeats), and the shared counter is
incremented once per call, wrapping at the boundary. -/
theorem next_data_client_round_robin (pool : List InterceptedClient) (counter : Nat)
    (h : 0 < pool.length) (hc : counter + pool.length ≤ usizeSize) :
    (runNextCalls pool counter pool.length).1 =
      (List.range pool.length).map (fun k => pool.get? ((counter + k) % pool.length)) ∧
    ((List.range pool.length).map (fun k => (counter + k) % pool.length)).Perm
      (List.range pool.length) ∧
    (runNextCalls pool counter pool.length).2 = (counter + pool.length) % usizeSize := by
  have hcM : counter < usizeSize := by omega
  obtain ⟨h1, h2⟩ := runNextCalls_spec pool pool.length counter hcM
  refine ⟨?_, ?_, h2⟩
  · rw [h1]
    apply List.map_congr_left
    intro k hk
    rw [List.mem_range] at hk
    have hlt : counter + k < usizeSize := by omega
    rw [Nat.mod_eq_of_lt hlt]
  · have hnd : ((List.range pool.length).map
        (fun k => (counter + k) % pool.length)).Nodup := by
      refine List.Nodup.map_on ?_ (List.nodup_range _)
      intro x hx y hy hxy
      rw [List.mem_range] at hx hy
      have hx1 : (counter + x) % pool.length = (counter + y) % pool.length := hxy
      have : x % pool.length = y % pool.length :=
        Nat.ModEq.add_left_cancel' counter hx1
      rwa [Nat.mod_eq_of_lt hx, Nat.mod_eq_of_lt hy] at this
    have hsub : ((List.range pool.length).map
        (fun k => (counter + k) % pool.length)) ⊆ List.range pool.length := by
      intro x hx
      rw [List.mem_map] at hx
      obtain ⟨k, _, hk⟩ := hx
      rw [List.mem_range, ← hk]
      exact Nat.mod_lt _ h
    refine (List.subperm_of_subset hnd hsub).perm_of_length_le ?_
    simp

/-- Witness for `next_data_client_round_robin`: a pool of three clients,
starting from shared counter 5 (no wrap within the cycle), is visited as
indices 2, 0, 1 — each exactly once — and the counter advances to 8. -/
theorem next_data_client_round_robin_witness :
    0 < ([⟨⟨10⟩, ⟨[], []⟩⟩, ⟨⟨11⟩, ⟨[], []⟩⟩, ⟨⟨12⟩, ⟨[], []⟩⟩] :
      List InterceptedClient).length ∧
    5 + ([⟨⟨10⟩, ⟨[], []⟩⟩, ⟨⟨11⟩, ⟨[], []⟩⟩, ⟨⟨12⟩, ⟨[], []⟩⟩] :
      List InterceptedClient).length ≤ usizeSize ∧
    (runNextCalls [⟨⟨10⟩, ⟨[], []⟩⟩, ⟨⟨11⟩, ⟨[], []⟩⟩, ⟨⟨12⟩, ⟨[], []⟩⟩] 5 3).1 =
      [some ⟨⟨12⟩, ⟨[], []⟩⟩, some ⟨⟨10⟩, ⟨[], []⟩⟩, some ⟨⟨11⟩, ⟨[], []⟩⟩] ∧
    (runNextCalls [⟨⟨10⟩, ⟨[], []⟩⟩, ⟨⟨11⟩, ⟨[], []⟩⟩, ⟨⟨12⟩, ⟨[], []⟩⟩] 5 3).2 = 8 := by
  have h := next_data_client_round_robin
    [⟨⟨10⟩, ⟨[], []⟩⟩, ⟨⟨11⟩, ⟨[], []⟩⟩, ⟨⟨12⟩, ⟨[], []⟩⟩] 5 (by decide) (by decide)
  exact ⟨by decide, by decide, h.1.trans (by decide), h.2.2.trans (by decide)⟩

/-- C2 evaluated at the failing input: `NEXT_DATA_CLIENT_INDEX` is a
process-wide `static` shared by every `LeaderboardClient`, so a
`next_data_client` call on client A (pool of one) advances the counter seen by
client B (pool of two), changing B's next selection from its index 0 to its
index 1 — selections on one client do change which connection the other
selects next. -/
theorem next_data_client_cross_client_interference :
    (next_data_client [⟨⟨200⟩, ⟨[], []⟩⟩, ⟨⟨201⟩, ⟨[], []⟩⟩] 0).1 =
      some ⟨⟨200⟩, ⟨[], []⟩⟩ ∧
    (next_data_client [⟨⟨100⟩, ⟨[], []⟩⟩] 0).2 = 1 ∧
    (next_data_client [⟨⟨200⟩, ⟨[], []⟩⟩, ⟨⟨201⟩, ⟨[], []⟩⟩]
        ((next_data_client [⟨⟨100⟩, ⟨[], []⟩⟩] 0).2)).1 =
      some ⟨⟨201⟩, ⟨[], []⟩⟩ := by decide

/-- C10: `next_data_client` silently requires a non-empty pool: on a
non-empty pool it returns a member of the pool, but a client built
`with_num_connections 0` — which the builder accepts without validation,
yielding an empty pool — makes `next_data_client` take a remainder modulo
zero and panic (`none` in the model) instead of returning a connection or a
structured error. -/
theorem next_data_client_empty_pool_panics :
    (∀ (pool : List InterceptedClient) (counter : Nat), pool ≠ [] →
      ∃ x, (next_data_client pool counter).1 = some x ∧ x ∈ pool) ∧
    (∀ (b : LeaderboardClientBuilder ReadyToBuild) (o : ConnectOracle) (ch : Channel)
        (counter : Nat), o.control_outcome = .ok ch →
      ∃ client, (b.with_num_connections 0).build o = .ok client ∧
        client.data_clients = [] ∧
        (next_data_client client.data_clients counter).1 = none) := by
  constructor
  · intro pool counter hne
    have hlen : 0 < pool.length := List.length_pos.mpr hne
    have hidx : counter % pool.length < pool.length := Nat.mod_lt _ hlen
    refine ⟨pool.get ⟨_, hidx⟩, ?_, List.get_mem _ _ _⟩
    simp [next_data_client, List.get?_eq_get hidx]
  · intro b o ch counter ho
    unfold LeaderboardClientBuilder.build
    simp only [LeaderboardClientBuilder.with_num_connections, List.range_zero,
      List.map_nil, collectResults, ho, next_data_client]
    exact ⟨_, rfl, rfl, rfl⟩

/-- Witness for `next_data_client_empty_pool_panics`: a singleton pool yields
a member; a zero-channel build succeeds with an empty pool on which selection
panics. -/
theorem next_data_client_empty_pool_panics_witness :
    (∃ x, (next_data_client [⟨⟨7⟩, ⟨[], []⟩⟩] 4).1 = some x ∧
      x ∈ ([⟨⟨7⟩, ⟨[], []⟩⟩] : List InterceptedClient)) ∧
    (∃ client,
      ((⟨⟨⟨⟨⟨3, 5000⟩⟩⟩, ⟨ascii "k", ascii "c", ascii "d", ascii "t"⟩⟩⟩ :
          LeaderboardClientBuilder ReadyToBuild).with_num_connections 0).build
        ⟨fun i => .ok ⟨i⟩, .ok ⟨99⟩⟩ = .ok client ∧
      client.data_clients = [] ∧
      (next_data_client client.data_clients 0).1 = none) :=
  ⟨next_data_client_empty_pool_panics.1 _ 4 (by decide),
   next_data_client_empty_pool_panics.2 _ _ ⟨99⟩ 0 rfl⟩

theorem collectResults_error_of_mem (l : List (Except ChannelConnectError Channel))
    (h : ∃ x ∈ l, ∃ e, x = .error e) : ∃ e, collectResults l = .error e := by
  induction l with
  | nil => simp at h
  | cons x rest ih =>
      obtain ⟨y, hy, e, he⟩ := h
      rcases List.mem_cons.mp hy with hy1 | hy2
      · subst hy1
        subst he
        exact ⟨e, rfl⟩
      · rcases x with e3 | c
        · exact ⟨e3, rfl⟩
        · obtain ⟨e2, h2⟩ := ih ⟨y, hy2, e, he⟩
          refine ⟨e2, ?_⟩
          rw [show collectResults (Except.ok c :: rest) =
            (collectResults rest).map (c :: ·) from rfl, h2]
          rfl

theorem collectResults_ok_length (l : List (Except ChannelConnectError Channel))
    (as : List Channel) (h : collectResults l = .ok as) : as.length = l.length := by
  induction l generalizing as with
  | nil =>
      rw [show collectResults [] = Except.ok [] from rfl] at h
      cases h
      rfl
  | cons x rest ih =>
      rcases x with e | c
      · rw [show collectResults (Except.error e :: rest) = Except.error e from rfl] at h
        cases h
      · rw [show collectResults (Except.ok c :: rest) =
          (collectResults rest).map (c :: ·) from rfl] at h
        rcases hr : collectResults rest with e2 | as2
        · rw [hr] at h
          cases h
        · rw [hr] at h
          cases h
          simp [ih as2 hr]

/-- C4: `build` fails atomically: if any one of the `N` data connection
attempts or the single control connection attempt fails, `build` returns a
`ChannelConnectError` and no client — no partially-populated pool is
observable; on success the returned client holds exactly `N` data connections
(plus its one control connection). -/
theorem build_atomic (b : LeaderboardClientBuilder ReadyToBuild) (o : ConnectOracle) :
    ((∃ i < b.state.configuration.transport_strategy.grpc_configuration.num_channels,
        ∃ e, o.data_outcome i = .error e) ∨ (∃ e, o.control_outcome = .error e) →
      ∃ e, b.build o = .error e) ∧
    (∀ client, b.build o = .ok client →
      client.data_clients.length =
        b.state.configuration.transport_strategy.grpc_configuration.num_channels) := by
  constructor
  · intro h
    rcases h with ⟨i, hi, e, he⟩ | ⟨e, he⟩
    · obtain ⟨e2, h2⟩ := collectResults_error_of_mem
        ((List.range b.state.configuration.transport_strategy.grpc_configuration.num_channels).map
          o.data_outcome)
        ⟨o.data_outcome i, List.mem_map_of_mem _ (List.mem_range.mpr hi), e, he⟩
      refine ⟨e2, ?_⟩
      unfold LeaderboardClientBuilder.build
      rw [h2]
    · rcases hc : collectResults
        ((List.range b.state.configuration.transport_strategy.grpc_configuration.num_channels).map
          o.data_outcome) with e2 | as
      · refine ⟨e2, ?_⟩
        unfold LeaderboardClientBuilder.build
        rw [hc]
      · refine ⟨e, ?_⟩
        unfold LeaderboardClientBuilder.build
        rw [hc, he]
  · intro client hok
    unfold LeaderboardClientBuilder.build at hok
    rcases hc : collectResults
        ((List.range b.state.configuration.transport_strategy.grpc_configuration.num_channels).map
          o.data_outcome) with e2 | as
    · rw [hc] at hok
      cases hok
    · rw [hc] at hok
      rcases ho : o.control_outcome with e3 | ch
      · rw [ho] at hok
        cases hok
      · rw [ho] at hok
        cases hok
        have hlen := collectResults_ok_length _ _ hc
        simp [hlen]

/-- Witness for `build_atomic`: with the second of three data attempts
failing, `build` errors; with all attempts succeeding, the client holds
exactly three data connections. -/
theorem build_atomic_witness :
    (∃ e, (⟨⟨⟨⟨⟨3, 5000⟩⟩⟩, ⟨ascii "k", ascii "c", ascii "d", ascii "t"⟩⟩⟩ :
        LeaderboardClientBuilder ReadyToBuild).build
      ⟨fun i => if i = 1 then .error ⟨⟩ else .ok ⟨i⟩, .ok ⟨99⟩⟩ = .error e) ∧
    (LeaderboardClient.data_clients
        ⟨[⟨⟨0⟩, ⟨ascii "k", user_agent (ascii "cache")⟩⟩,
          ⟨⟨1⟩, ⟨ascii "k", user_agent (ascii "cache")⟩⟩,
          ⟨⟨2⟩, ⟨ascii "k", user_agent (ascii "cache")⟩⟩],
         ⟨⟨99⟩, ⟨ascii "k", user_agent (ascii "cache")⟩⟩, ⟨⟨⟨3, 5000⟩⟩⟩⟩).length = 3 :=
  ⟨(build_atomic _ _).1 (Or.inl ⟨1, by decide, ⟨⟩, by decide⟩),
   (build_atomic (⟨⟨⟨⟨⟨3, 5000⟩⟩⟩, ⟨ascii "k", ascii "c", ascii "d", ascii "t"⟩⟩⟩ :
        LeaderboardClientBuilder ReadyToBuild) ⟨fun i => .ok ⟨i⟩, .ok ⟨99⟩⟩).2 _ (by decide)⟩

/-- C7 counterexample: the control-plane `DeleteLeaderboardRequest::send`
prepares its outgoing call without routing through the dispatcher helper — it
attaches no deadline at all — refuting "for every operation type the outgoing
call carries an absolute deadline computed from the configured timeout". -/
theorem delete_leaderboard_send_lacks_deadline :
    ∃ call, DeleteLeaderboardRequest.prepare ⟨ascii "cache", ascii "lb"⟩ = .ok call ∧
      call.deadline = none :=
  ⟨{ message := { cache_name := ascii "cache" }, deadline := none, target_name := none },
   by decide, rfl⟩

/-- C7 amended: the data-plane `GetRankRequest::send` routes through
`prep_request_with_timeout`, so its outgoing call carries the absolute
deadline `now + configured timeout` and a target name that passed the
non-emptiness validation before any network attempt (`InvalidArgument` on an
empty name); the control-plane `DeleteLeaderboardRequest::send` validates its
target name before any network attempt, but attaches no deadline and does not
use the dispatcher helper. -/
theorem send_deadline_and_name_validation (cache_name leaderboard ids : List Nat)
    (order : Order) (client : LeaderboardClient) (now : Nat) :
    (∀ call, GetRankRequest.prepare ⟨cache_name, leaderboard, ids, order⟩ client now =
        .ok call →
      cache_name ≠ [] ∧ call.deadline = some (now + client.deadline_millis) ∧
        call.target_name = some cache_name) ∧
    (cache_name = [] → ∃ e, GetRankRequest.prepare ⟨cache_name, leaderboard, ids, order⟩
        client now = .error e ∧ e.error_code = .invalidArgumentError) ∧
    (∀ call, DeleteLeaderboardRequest.prepare ⟨cache_name, leaderboard⟩ = .ok call →
      cache_name ≠ [] ∧ call.deadline = none) ∧
    (cache_name = [] → ∃ e, DeleteLeaderboardRequest.prepare ⟨cache_name, leaderboard⟩ =
        .error e ∧ e.error_code = .invalidArgumentError) := by
  by_cases hne : cache_name = []
  · refine ⟨?_, ?_, ?_, ?_⟩
    · intro call hc
      rw [GetRankRequest.prepare, prep_request_with_timeout, is_cache_name_valid,
        if_pos hne] at hc
      cases hc
    · intro _
      refine ⟨{ message := ascii "Cache name cannot be empty"
                error_code := .invalidArgumentError }, ?_, rfl⟩
      rw [GetRankRequest.prepare, prep_request_with_timeout, is_cache_name_valid, if_pos hne]
    · intro call hc
      rw [DeleteLeaderboardRequest.prepare, is_cache_name_valid, if_pos hne] at hc
      cases hc
    · intro _
      refine ⟨{ message := ascii "Cache name cannot be empty"
                error_code := .invalidArgumentError }, ?_, rfl⟩
      rw [DeleteLeaderboardRequest.prepare, is_cache_name_valid, if_pos hne]
  · refine ⟨?_, fun h => absurd h hne, ?_, fun h => absurd h hne⟩
    · intro call hc
      rw [GetRankRequest.prepare, prep_request_with_timeout, is_cache_name_valid,
        if_neg hne] at hc
      cases hc
      exact ⟨hne, rfl, rfl⟩
    · intro call hc
      rw [DeleteLeaderboardRequest.prepare, is_cache_name_valid, if_neg hne] at hc
      cases hc
      exact ⟨hne, rfl⟩

/-- Witness for `send_deadline_and_name_validation` at a concrete request,
client and clock. -/
theorem send_deadline_and_name_validation_witness :
    (ascii "cache" ≠ [] ∧
      OutboundCall.deadline
        ({ message := { cache_name := ascii "cache", leaderboard := ascii "lb"
                        ids := [1, 2], order := Order.toI32 .ascending }
           deadline := some (1000 + 5000)
           target_name := some (ascii "cache") } : OutboundCall GetRankProto) =
        some (1000 + LeaderboardClient.deadline_millis
          ⟨[], ⟨⟨9⟩, ⟨[], []⟩⟩, ⟨⟨⟨0, 5000⟩⟩⟩⟩) ∧
      OutboundCall.target_name
        ({ message := { cache_name := ascii "cache", leaderboard := ascii "lb"
                        ids := [1, 2], order := Order.toI32 .ascending }
           deadline := some (1000 + 5000)
           target_name := some (ascii "cache") } : OutboundCall GetRankProto) =
        some (ascii "cache")) ∧
    (ascii "cache" ≠ [] ∧
      OutboundCall.deadline
        ({ message := { cache_name := ascii "cache" }
           deadline := none, target_name := none } : OutboundCall DeleteCacheProto) =
        none) := by
  constructor
  · exact (send_deadline_and_name_validation (ascii "cache") (ascii "lb") [1, 2]
      .ascending ⟨[], ⟨⟨9⟩, ⟨[], []⟩⟩, ⟨⟨⟨0, 5000⟩⟩⟩⟩ 1000).1 _ (by decide)
  · exact (send_deadline_and_name_validation (ascii "cache") (ascii "lb") [1, 2]
      .ascending ⟨[], ⟨⟨9⟩, ⟨[], []⟩⟩, ⟨⟨⟨0, 5000⟩⟩⟩⟩ 1000).2.2.1 _ (by decide)

/-- C8: the builder enforces an ordered sequence of phases: from the initial
phase the only exposed operation supplies a configuration and yields the
`NeedsCredentialProvider` phase; from that phase the only operation supplies a
credential provider and yields `ReadyToBuild`; a built client arises only from
a `build` call on `ReadyToBuild`, which holds both a configuration and a
credential provider — and every builder-API call chain producing a client
factors as configuration first, then credentials, then (after optional
channel-count overrides) `build`. -/
theorem builder_phases_ordered :
    (∀ q, BuilderStep .needsConfiguration q → ∃ cfg, q = .needsCredentialProvider cfg) ∧
    (∀ cfg q, BuilderStep (.needsCredentialProvider cfg) q →
      ∃ cred, q = .readyToBuild cfg cred) ∧
    (∀ p client, BuilderStep p (.built client) →
      ∃ cfg cred oracle, p = .readyToBuild cfg cred ∧
        LeaderboardClientBuilder.build ⟨⟨cfg, cred⟩⟩ oracle = .ok client) ∧
    (∀ client, Relation.ReflTransGen BuilderStep .needsConfiguration (.built client) →
      ∃ cfg cred cfg2,
        BuilderStep .needsConfiguration (.needsCredentialProvider cfg) ∧
        Relation.ReflTransGen BuilderStep (.needsCredentialProvider cfg)
          (.readyToBuild cfg2 cred) ∧
        BuilderStep (.readyToBuild cfg2 cred) (.built client)) := by
  have hfirst : ∀ q, BuilderStep .needsConfiguration q →
      ∃ cfg, q = .needsCredentialProvider cfg := by
    intro q hq
    cases hq
    exact ⟨_, rfl⟩
  have hsecond : ∀ cfg q, BuilderStep (.needsCredentialProvider cfg) q →
      ∃ cred, q = .readyToBuild cfg cred := by
    intro cfg q hq
    cases hq
    exact ⟨_, rfl⟩
  have hlast : ∀ p client, BuilderStep p (.built client) →
      ∃ cfg cred oracle, p = .readyToBuild cfg cred ∧
        LeaderboardClientBuilder.build ⟨⟨cfg, cred⟩⟩ oracle = .ok client := by
    intro p client hq
    cases hq with
    | build cfg cred oracle client hok => exact ⟨cfg, cred, oracle, rfl, hok⟩
  refine ⟨hfirst, hsecond, hlast, ?_⟩
  intro client hpath
  rcases (Relation.ReflTransGen.cases_head hpath) with heq | ⟨b, hstep, hrest⟩
  · cases heq
  obtain ⟨cfg, rfl⟩ := hfirst b hstep
  rcases (Relation.ReflTransGen.cases_tail hrest) with heq | ⟨p, hmid, hstep2⟩
  · cases heq
  obtain ⟨cfg2, cred, _, rfl, hok⟩ := hlast p client hstep2
  exact ⟨cfg, cred, cfg2, hstep, hmid, hstep2⟩

/-- Witness for `builder_phases_ordered`: a concrete call chain
`builder → configuration → credential_provider → build` producing a concrete
client. -/
theorem builder_phases_ordered_witness :
    ∃ cfg cred cfg2,
      BuilderStep .needsConfiguration (.needsCredentialProvider cfg) ∧
      Relation.ReflTransGen BuilderStep (.needsCredentialProvider cfg)
        (.readyToBuild cfg2 cred) ∧
      BuilderStep (.readyToBuild cfg2 cred)
        (.built ⟨[⟨⟨0⟩, ⟨ascii "k", user_agent (ascii "cache")⟩⟩],
                 ⟨⟨9⟩, ⟨ascii "k", user_agent (ascii "cache")⟩⟩, ⟨⟨⟨1, 5000⟩⟩⟩⟩) := by
  have hb : LeaderboardClientBuilder.build
      ⟨⟨⟨⟨⟨1, 5000⟩⟩⟩, ⟨ascii "k", ascii "c", ascii "d", ascii "t"⟩⟩⟩
      ⟨fun i => .ok ⟨i⟩, .ok ⟨9⟩⟩ =
      .ok ⟨[⟨⟨0⟩, ⟨ascii "k", user_agent (ascii "cache")⟩⟩],
           ⟨⟨9⟩, ⟨ascii "k", user_agent (ascii "cache")⟩⟩, ⟨⟨⟨1, 5000⟩⟩⟩⟩ := by decide
  have hpath : Relation.ReflTransGen BuilderStep .needsConfiguration
      (.built ⟨[⟨⟨0⟩, ⟨ascii "k", user_agent (ascii "cache")⟩⟩],
               ⟨⟨9⟩, ⟨ascii "k", user_agent (ascii "cache")⟩⟩, ⟨⟨⟨1, 5000⟩⟩⟩⟩) :=
    Relation.ReflTransGen.head (BuilderStep.configuration ⟨⟨⟨1, 5000⟩⟩⟩)
      (Relation.ReflTransGen.head
        (BuilderStep.credential_provider ⟨⟨⟨1, 5000⟩⟩⟩
          ⟨ascii "k", ascii "c", ascii "d", ascii "t"⟩)
        (Relation.ReflTransGen.single
          (BuilderStep.build ⟨⟨⟨1, 5000⟩⟩⟩ ⟨ascii "k", ascii "c", ascii "d", ascii "t"⟩
            ⟨fun i => .ok ⟨i⟩, .ok ⟨9⟩⟩ _ hb)))
  exact builder_phases_ordered.2.2.2 _ hpath

end ClientSdk